import Mathlib

/-!
Verification of the document-classification framework
(`simple_framework.py`) and the stock-data retry logic
(`stock_analysis.py`, `GetStockDataTool._run`) of the
document-classification-framework repository.

The Python code is shallowly embedded: file-system and network effects
are supplied through explicit oracle structures (`FS`, fetch functions),
strings are Lean `String`s (Python `str.lower`/slicing act on code
points, as here), and each embedded definition mirrors the corresponding
Python function line by line.
-/

namespace DocFramework

/-- Python `p.isPrefixOf s`-style check used to build substring search:
`charsIsPrefix p s` is true iff `p` is an initial segment of `s`. -/
def charsIsPrefix : List Char → List Char → Bool
  | [], _ => true
  | _ :: _, [] => false
  | a :: p, b :: s => a == b && charsIsPrefix p s

/-- Contiguous-substring search over character lists; `charsContains s p`
mirrors Python's `p in s` for strings. -/
def charsContains (s p : List Char) : Bool :=
  match s with
  | [] => p.isEmpty
  | _ :: t => charsIsPrefix p s || charsContains t p

/-- Python `pat in s` (contiguous substring containment). -/
def strContains (s pat : String) : Bool :=
  charsContains s.toList pat.toList

/-- Python `s.endswith(p)`; also the semantics of a `*<p>` glob pattern on
a case-sensitive filesystem. -/
def strEndsWith (s p : String) : Bool :=
  p.toList.isSuffixOf s.toList

/-- Python slicing `s[:n]` (by code points). -/
def strTake (s : String) (n : Nat) : String :=
  String.mk (s.toList.take n)

/-- Python `s.lower()` (ASCII case mapping; all strings in this program
are ASCII). -/
def strToLower (s : String) : String :=
  String.mk (s.toList.map Char.toLower)

/-- Python `s.upper()` (ASCII case mapping). -/
def strToUpper (s : String) : String :=
  String.mk (s.toList.map Char.toUpper)

/-- Split a character list at every separator satisfying `sep`, keeping
empty pieces — the semantics of Python `str.split(c)` for a one-character
separator (with `sep = (· == c)`). -/
def splitChars (sep : Char → Bool) : List Char → List (List Char)
  | [] => [[]]
  | c :: t =>
    let r := splitChars sep t
    if sep c then [] :: r
    else
      match r with
      | [] => [[c]]
      | h :: rt => (c :: h) :: rt

/-- Python `len(s.split())`: words of `s` separated by whitespace runs,
empty pieces dropped. -/
def wordCount (s : String) : Nat :=
  ((splitChars (fun c => c.isWhitespace) s.toList).filter fun w => w ≠ []).length

/-- Python `s.strip()`: drop whitespace from both ends. -/
def strTrim (s : String) : String :=
  String.mk ((((s.toList.dropWhile fun c => c.isWhitespace).reverse.dropWhile
    fun c => c.isWhitespace)).reverse)

/-- `PurePath.name`: the final path component (after the last `/`). -/
def pathName (p : String) : String :=
  String.mk ((splitChars (· == '/') p.toList).getLastD [])

/-- Index of the last `.` in a character list (Python `str.rfind('.')`),
`none` when absent. -/
def lastDotIndex (l : List Char) : Option Nat :=
  ((List.range l.length).filter fun i => l.getD i ' ' == '.').getLast?

/-- `PurePath.suffix`: the extension of the final component, i.e.
`name[i:]` for `i = name.rfind('.')` when `0 < i < len(name) - 1`,
else the empty string. -/
def pathSuffix (p : String) : String :=
  let name := pathName p
  let l := name.toList
  match lastDotIndex l with
  | some i => if 0 < i ∧ i + 1 < l.length then String.mk (l.drop i) else ""
  | none => ""

/-- `financial_keywords` list from `classify_document`. -/
def financial_keywords : List String :=
  ["invoice", "payment", "receipt", "budget", "financial", "cost", "price", "total", "amount"]

/-- `legal_keywords` list from `classify_document`. -/
def legal_keywords : List String :=
  ["contract", "agreement", "legal", "terms", "policy", "clause", "liability", "copyright"]

/-- `hr_keywords` list from `classify_document`. -/
def hr_keywords : List String :=
  ["resume", "cv", "employee", "hr", "payroll", "benefits", "hiring", "interview"]

/-- `tech_keywords` list from `classify_document`. -/
def tech_keywords : List String :=
  ["technical", "specification", "manual", "guide", "documentation", "api", "software"]

/-- `any(keyword in content_lower or keyword in filename_lower for keyword in keywords)`. -/
def keywordHit (content_lower filename_lower : String) (keywords : List String) : Bool :=
  keywords.any fun k => strContains content_lower k || strContains filename_lower k

/-- `DocumentClassificationFramework.classify_document`: lower-case the
content and filename, test the four keyword sets in order, return the
first matching category, else `"general"`. -/
def classify_document (content : String) (filename : String) : String :=
  let content_lower := strToLower content
  let filename_lower := strToLower filename
  if keywordHit content_lower filename_lower financial_keywords then "financial"
  else if keywordHit content_lower filename_lower legal_keywords then "legal"
  else if keywordHit content_lower filename_lower hr_keywords then "hr"
  else if keywordHit content_lower filename_lower tech_keywords then "technical"
  else "general"

/-- `DocumentClassificationFramework.generate_summary`: word count, the
first three `.`-separated sentences re-joined by `". "` and stripped,
truncated to 200 characters with an ellipsis, prefixed with a fixed
category/word-count phrase. -/
def generate_summary (content : String) (category : String) : String :=
  let word_count := wordCount content
  let sentences := (splitChars (· == '.') content.toList).take 3
  let first_part0 := strTrim (String.mk (List.intercalate ['.', ' '] sentences))
  let first_part :=
    if first_part0.length > 200 then strTake first_part0 200 ++ "..." else first_part0
  let summary := "This is a " ++ category ++ " document with " ++ toString word_count ++ " words. "
  if first_part ≠ "" then summary ++ ("Content preview: " ++ first_part) else summary

/-- Oracle view of the file system and of the extraction libraries.
Each text oracle is the total function the corresponding Python helper
(`extract_pdf_text`, `extract_word_text`, `extract_image_text`,
`Path.read_text`) realises: every one of those helpers catches the
library's exceptions and returns a string (possibly empty), so a total
`String → String` oracle captures all their behaviours. -/
structure FS where
  pathExists : String → Bool
  size : String → Nat
  pdfText : String → String
  wordText : String → String
  imageText : String → String
  txtText : String → String
  dirExists : String → Bool
  listDir : String → List String

/-- `DocumentClassificationFramework.extract_text`: dispatch on the
lower-cased file suffix; unsupported suffixes yield the empty string. -/
def extract_text (fs : FS) (file_path : String) : String :=
  let extension := strToLower (pathSuffix file_path)
  if extension == ".pdf" then fs.pdfText file_path
  else if extension == ".doc" || extension == ".docx" then fs.wordText file_path
  else if extension == ".jpg" || extension == ".jpeg" || extension == ".png" then
    fs.imageText file_path
  else if extension == ".txt" then fs.txtText file_path
  else ""

/-- Result dictionary of `process_document`: either the success record
with its six fields, or `{"success": False, "error": msg}`. -/
inductive DocResult where
  | ok (file_name : String) (file_size : Nat) (word_count : Nat)
       (category : String) (summary : String) (content_preview : String) : DocResult
  | err (error : String) : DocResult
deriving DecidableEq

/-- The `success` flag of a `process_document` result. -/
def DocResult.success : DocResult → Bool
  | .ok .. => true
  | .err _ => false

/-- `content[:200] + "..." if len(content) > 200 else content`. -/
def contentPreview (content : String) : String :=
  if content.length > 200 then strTake content 200 ++ "..." else content

/-- `DocumentClassificationFramework.process_document`: check existence,
extract text, fail on empty text, otherwise classify, summarise and build
the success record. The Python body is wrapped in a `try/except` that
turns any exception into an error dictionary; with the effect oracles of
`FS` total, no modelled operation raises. -/
def process_document (fs : FS) (file_path : String) : DocResult :=
  if fs.pathExists file_path = false then
    .err ("File not found: " ++ file_path)
  else
    let content := extract_text fs file_path
    if content = "" then
      .err "Could not extract text from document"
    else
      let category := classify_document content (pathName file_path)
      let summary := generate_summary content category
      .ok (pathName file_path) (fs.size file_path) (wordCount content)
        category summary (contentPreview content)

/-- The `supported_extensions` set of `process_directory`, in a fixed
enumeration order (Python iterates the set in an unspecified order; every
claim below is order-insensitive). -/
def supported_ext_list : List String :=
  [".pdf", ".doc", ".docx", ".txt", ".jpg", ".jpeg", ".png"]

/-- One pass of the discovery loop of `process_directory`: for each
extension, append the files matching the glob `*<ext>` and then those
matching `*<EXT>` (glob on a case-sensitive filesystem = suffix match). -/
def globExts (exts : List String) (dir : List String) : List String :=
  match exts with
  | [] => []
  | e :: rest =>
    (dir.filter fun m => strEndsWith m e) ++
      ((dir.filter fun m => strEndsWith m (strToUpper e)) ++ globExts rest dir)

/-- File discovery of `process_directory` over a directory listing. -/
def findFiles (dir : List String) : List String :=
  globExts supported_ext_list dir

/-- `str(Path(directory) / name)` for a plain directory path. -/
def joinPath (d n : String) : String := d ++ "/" ++ n

/-- The `successful`/`failed` counter loop of `process_directory`. -/
def tally (results : List DocResult) : Nat × Nat :=
  results.foldl (fun p r => if r.success then (p.1 + 1, p.2) else (p.1, p.2 + 1)) (0, 0)

/-- Result dictionary of `process_directory`. -/
inductive DirResult where
  | ok (total_files : Nat) (successful : Nat) (failed : Nat) (results : List DocResult) : DirResult
  | err (error : String) : DirResult
deriving DecidableEq

/-- `DocumentClassificationFramework.process_directory`: check the
directory, discover supported files, fail when none, otherwise process
each file independently and aggregate the counters. -/
def process_directory (fs : FS) (directory_path : String) : DirResult :=
  if fs.dirExists directory_path = false then
    .err ("Directory not found: " ++ directory_path)
  else
    let files := findFiles (fs.listDir directory_path)
    if files.isEmpty then
      .err "No supported documents found"
    else
      let results := files.map fun f => process_document fs (joinPath directory_path f)
      let counts := tally results
      .ok files.length counts.1 counts.2 results

/-- The full list of glob patterns tried by the discovery loop: for each
supported extension, its exact-lowercase and exact-uppercase form. -/
def patsOf : List String → List String
  | [] => []
  | e :: rest => e :: strToUpper e :: patsOf rest

/-- Concrete file-system oracle: a directory `docs` holding three
readable text files and two files whose extraction yields no text. -/
def fsBatch : FS where
  pathExists := fun _ => true
  size := fun _ => 10
  pdfText := fun _ => ""
  wordText := fun _ => ""
  imageText := fun _ => ""
  txtText := fun _ => "hello world"
  dirExists := fun d => d == "docs"
  listDir := fun d => if d == "docs" then ["a.txt", "b.txt", "c.txt", "d.pdf", "e.png"] else []

/-- Concrete file-system oracle: an existing directory containing only a
file with an unsupported extension. -/
def fsNoFiles : FS where
  pathExists := fun _ => true
  size := fun _ => 0
  pdfText := fun _ => ""
  wordText := fun _ => ""
  imageText := fun _ => ""
  txtText := fun _ => ""
  dirExists := fun _ => true
  listDir := fun _ => ["notes.md"]

/-- Concrete file-system oracle on which no path exists. -/
def fsAbsent : FS where
  pathExists := fun _ => false
  size := fun _ => 0
  pdfText := fun _ => ""
  wordText := fun _ => ""
  imageText := fun _ => ""
  txtText := fun _ => ""
  dirExists := fun _ => false
  listDir := fun _ => []

/-- Observable state of a `DocumentClassificationFramework` instance:
what has been printed and what has been logged. -/
structure PState where
  stdout : List String
  log : List String
deriving DecidableEq

/-- State-passing embedding of `classify_document`: the method's body
contains no print, logging or attribute-mutation statement, so the
embedding threads the instance state through unchanged. -/
def classifyRun (st : PState) (content : String) (filename : String) : String × PState :=
  (classify_document content filename, st)

end DocFramework

namespace StockAnalysis

/-- Return value of the inner `try_fetch_stock`: the `(result, success)`
pair, where `result` carries the compiled data on success and the
`"Error fetching ..."` string on failure. -/
structure TryFetchResult where
  result : String
  success : Bool

/-- `GetStockDataTool._run`: call `try_fetch_stock` (the oracle `fetch`)
on the symbol; if it failed and the symbol does not already end in
`".NS"`, retry exactly once with `".NS"` appended; return the formatted
data on success and the raw error string on failure. The second
component records the exact sequence of fetch attempts made. -/
def runStockFetch (fetch : String → TryFetchResult) (format : String → String)
    (symbol : String) : String × List String :=
  let first := fetch symbol
  if !first.success && !(DocFramework.strEndsWith symbol ".NS") then
    let second := fetch (symbol ++ ".NS")
    ((if second.success then format second.result else second.result),
      [symbol, symbol ++ ".NS"])
  else
    ((if first.success then format first.result else first.result), [symbol])

/-- Fetch oracle on which every attempt fails with the error string the
Python `except` branch produces. -/
def fetchAlwaysFail : String → TryFetchResult :=
  fun t => ⟨"Error fetching " ++ t, false⟩

/-- Fetch oracle on which every attempt succeeds. -/
def fetchAlwaysOk : String → TryFetchResult :=
  fun t => ⟨"data for " ++ t, true⟩

end StockAnalysis

namespace DocFramework

/-- Counting the elements that satisfy a predicate and those that do not
partitions the length of a list. -/
theorem countP_not_add {α : Type} (p : α → Bool) (l : List α) :
    l.countP p + l.countP (fun x => !p x) = l.length := by
  induction l with
  | nil => simp
  | cons a t ih =>
    by_cases h : p a <;> simp [List.countP_cons, h] <;> omega

/-- The counter loop of `process_directory` computes the two `countP`s. -/
theorem foldl_tally (l : List DocResult) : ∀ a b : Nat,
    l.foldl (fun p r => if r.success then (p.1 + 1, p.2) else (p.1, p.2 + 1)) (a, b) =
      (a + l.countP (fun r => r.success), b + l.countP (fun r => !r.success)) := by
  induction l with
  | nil => intro a b; simp
  | cons r t ih =>
    intro a b
    by_cases h : r.success <;>
      simp only [List.foldl_cons, h, if_true, if_false, List.countP_cons, ih,
        Bool.not_true, Bool.not_false] <;>
      simp [h] <;> omega

/-- `tally` as the pair of success/failure counts. -/
theorem tally_eq (l : List DocResult) :
    tally l = (l.countP (fun r => r.success), l.countP (fun r => !r.success)) := by
  simpa [tally] using foldl_tally l 0 0

/-- `strEndsWith` decides the list-suffix relation on the characters. -/
theorem strEndsWith_iff {s p : String} : strEndsWith s p = true ↔ p.toList <:+ s.toList := by
  simp [strEndsWith]

/-- Counting a name in a glob result: the whole count of the directory
when the name matches the pattern, zero otherwise. -/
theorem count_filter_ends (dir : List String) (p n : String) :
    ((dir.filter fun m => strEndsWith m p).count n) =
      if strEndsWith n p then dir.count n else 0 := by
  induction dir with
  | nil => simp
  | cons a t ih =>
    by_cases hp : strEndsWith a p
    · by_cases hn : a = n
      · subst hn
        simp [List.filter_cons, hp, List.count_cons, ih]
      · simp [List.filter_cons, hp, List.count_cons, hn, ih]
    · by_cases hn : a = n
      · subst hn
        simp [List.filter_cons, hp, List.count_cons, ih]
      · simp [List.filter_cons, hp, List.count_cons, hn, ih]

/-- Counting a name in the discovery result: the number of patterns the
name matches times its multiplicity in the directory listing. -/
theorem count_globExts (exts dir : List String) (n : String) :
    ((globExts exts dir).count n) =
      (patsOf exts).countP (fun p => strEndsWith n p) * dir.count n := by
  induction exts with
  | nil => simp [globExts, patsOf]
  | cons e rest ih =>
    simp only [globExts, patsOf, List.count_append, count_filter_ends, List.countP_cons, ih]
    by_cases h1 : strEndsWith n e <;> by_cases h2 : strEndsWith n (strToUpper e) <;>
      simp [h1, h2] <;> ring

/-- A predicate that holds on exactly one member of a duplicate-free
list is counted once. -/
theorem countP_eq_one_of_unique {α : Type} (l : List α) (p : α → Bool) (a : α)
    (hnd : l.Nodup) (ha : a ∈ l) (hpa : p a = true)
    (huni : ∀ x ∈ l, p x = true → x = a) : l.countP p = 1 := by
  induction l with
  | nil => cases ha
  | cons b t ih =>
    have hnd' : t.Nodup := (List.nodup_cons.mp hnd).2
    have hbt : b ∉ t := (List.nodup_cons.mp hnd).1
    rcases List.mem_cons.mp ha with h | hat
    · subst h
      have ht : t.countP p = 0 := by
        refine List.countP_eq_zero.mpr fun x hx hpx => ?_
        have := huni x (List.mem_cons_of_mem _ hx) hpx
        exact hbt (this ▸ hx)
      simp [List.countP_cons, hpa, ht]
    · have hb : ¬ p b = true := by
        intro hpb
        have := huni b (List.mem_cons_self b t) hpb
        exact hbt (this ▸ hat)
      have := ih hnd' hat fun x hx hpx => huni x (List.mem_cons_of_mem _ hx) hpx
      simp [List.countP_cons, hb, this]

/-- No pattern of the discovery loop is a proper suffix of another:
distinct patterns never match the same file name. -/
theorem pats_suffix_unique :
    ∀ p ∈ patsOf supported_ext_list, ∀ q ∈ patsOf supported_ext_list,
      p.toList <:+ q.toList → p = q := by decide

/-- The pattern list of the discovery loop has no duplicates. -/
theorem pats_nodup : (patsOf supported_ext_list).Nodup := by decide

/-- Both case variants of a supported extension occur in the pattern
list. -/
theorem mem_patsOf {e : String} {exts : List String} (h : e ∈ exts) :
    e ∈ patsOf exts ∧ strToUpper e ∈ patsOf exts := by
  induction exts with
  | nil => cases h
  | cons x rest ih =>
    rcases List.mem_cons.mp h with h | hr
    · subst h
      exact ⟨List.mem_cons_self _ _, List.mem_cons_of_mem _ (List.mem_cons_self _ _)⟩
    · have := ih hr
      exact ⟨List.mem_cons_of_mem _ (List.mem_cons_of_mem _ this.1),
        List.mem_cons_of_mem _ (List.mem_cons_of_mem _ this.2)⟩

/-- Length of a Python slice `s[:n]`. -/
theorem strTake_length (s : String) (n : Nat) : (strTake s n).length = min n s.length := by
  simp [strTake, String.toList, List.length_take, String.length_data]

/-- C1: `classify_document` tests the keyword sets in priority order
financial > legal > hr > technical; whenever the lower-cased content
contains both a financial keyword and a legal keyword the result is
`"financial"`, and the concrete invoice example classifies as
`"financial"`. -/
theorem classify_financial_priority :
    (∀ content filename : String,
        (∃ kf ∈ financial_keywords, strContains (strToLower content) kf = true) →
        (∃ kl ∈ legal_keywords, strContains (strToLower content) kl = true) →
        classify_document content filename = "financial") ∧
      classify_document "Please review the attached invoice and total amount due" "doc1.txt" =
        "financial" := by
  constructor
  · rintro content filename ⟨kf, hmem, hkf⟩ -
    have hhit : keywordHit (strToLower content) (strToLower filename) financial_keywords = true := by
      simp only [keywordHit, List.any_eq_true, Bool.or_eq_true]
      exact ⟨kf, hmem, Or.inl hkf⟩
    simp [classify_document, hhit]
  · decide

/-- Witness for C1: a content string holding the financial keyword
`"invoice"` and the legal keyword `"contract"` classifies as
`"financial"`. -/
theorem classify_financial_priority_witness :
    classify_document "invoice for the contract" "x.txt" = "financial" :=
  classify_financial_priority.1 "invoice for the contract" "x.txt"
    ⟨"invoice", by decide, by decide⟩ ⟨"contract", by decide, by decide⟩

/-- C3: `extract_text` on a path whose lower-cased suffix is not one of
the seven supported extensions returns the empty string, and
`process_document` on such an existing file reports the structured
failure `"Could not extract text from document"`. -/
theorem extract_unsupported_empty (fs : FS) (p : String)
    (h : strToLower (pathSuffix p) ∉ supported_ext_list) :
    extract_text fs p = "" ∧
      (fs.pathExists p = true →
        process_document fs p = .err "Could not extract text from document") := by
  have h1 : strToLower (pathSuffix p) ≠ ".pdf" := fun he => h (by rw [he]; decide)
  have h2 : strToLower (pathSuffix p) ≠ ".doc" := fun he => h (by rw [he]; decide)
  have h3 : strToLower (pathSuffix p) ≠ ".docx" := fun he => h (by rw [he]; decide)
  have h4 : strToLower (pathSuffix p) ≠ ".txt" := fun he => h (by rw [he]; decide)
  have h5 : strToLower (pathSuffix p) ≠ ".jpg" := fun he => h (by rw [he]; decide)
  have h6 : strToLower (pathSuffix p) ≠ ".jpeg" := fun he => h (by rw [he]; decide)
  have h7 : strToLower (pathSuffix p) ≠ ".png" := fun he => h (by rw [he]; decide)
  have hext : extract_text fs p = "" := by
    simp [extract_text, h1, h2, h3, h4, h5, h6, h7]
  exact ⟨hext, fun hex => by simp [process_document, hex, hext]⟩

/-- Witness for C3: a `.xyz` file exists but yields no text and a
structured failure. -/
theorem extract_unsupported_empty_witness :
    extract_text fsBatch "docs/data.xyz" = "" ∧
      process_document fsBatch "docs/data.xyz" = .err "Could not extract text from document" := by
  have h := extract_unsupported_empty fsBatch "docs/data.xyz" (by decide)
  exact ⟨h.1, h.2 rfl⟩

/-- C4: on a directory whose discovery yields a non-empty file list,
`process_directory` succeeds with `total_files` the number of discovered
files, one result entry per file, `successful`/`failed` the counts of
per-file successes/failures, and `successful + failed = total_files`. -/
theorem process_directory_aggregates (fs : FS) (d : String)
    (hdir : fs.dirExists d = true)
    (hne : (findFiles (fs.listDir d)).isEmpty = false) :
    ∃ results : List DocResult,
      process_directory fs d =
        .ok (findFiles (fs.listDir d)).length
          (results.countP fun r => r.success) (results.countP fun r => !r.success) results ∧
      results = (findFiles (fs.listDir d)).map (fun f => process_document fs (joinPath d f)) ∧
      results.length = (findFiles (fs.listDir d)).length ∧
      (results.countP fun r => r.success) + (results.countP fun r => !r.success) =
        (findFiles (fs.listDir d)).length := by
  refine ⟨_, ?_, rfl, ?_, ?_⟩
  · simp [process_directory, hdir, hne, tally_eq]
  · simp
  · rw [countP_not_add]
    simp

/-- Witness for C4: a directory of three extractable and two
unextractable documents yields `total_files = 5`, `successful = 3`,
`failed = 2`. -/
theorem process_directory_aggregates_witness :
    ∃ results : List DocResult,
      process_directory fsBatch "docs" =
        .ok 5 (results.countP fun r => r.success) (results.countP fun r => !r.success) results ∧
      (results.countP fun r => r.success) = 3 ∧
      (results.countP fun r => !r.success) = 2 := by
  obtain ⟨results, h1, h2, h3, h4⟩ :=
    process_directory_aggregates fsBatch "docs" rfl (by decide)
  have h5 : (findFiles (fsBatch.listDir "docs")).length = 5 := by decide
  rw [h5] at h1
  refine ⟨results, h1, ?_, ?_⟩
  · rw [h2]; decide
  · rw [h2]; decide

/-- C5 counterexample: the file `a.Pdf` has a suffix that lower-cases to
the supported extension `.pdf`, yet the discovery loop of
`process_directory` finds nothing in a directory containing exactly this
file — discovery is not case-insensitive. -/
theorem find_files_case_insensitive_false :
    strToLower (pathSuffix "a.Pdf") = ".pdf" ∧
      ".pdf" ∈ supported_ext_list ∧
      findFiles ["a.Pdf"] = [] := by decide

/-- C5 (amended): a file of a duplicate-free directory listing whose
name ends in the exact-lowercase or exact-uppercase form of a supported
extension is discovered exactly once; only these two case variants are
matched. -/
theorem find_files_exact_case (dir : List String) (n : String)
    (hnd : dir.Nodup) (hmem : n ∈ dir)
    (hext : ∃ e ∈ supported_ext_list,
      strEndsWith n e = true ∨ strEndsWith n (strToUpper e) = true) :
    (findFiles dir).count n = 1 := by
  obtain ⟨e, he, hcase⟩ := hext
  have hpats := mem_patsOf he
  obtain ⟨a, hamem, hpa⟩ : ∃ a ∈ patsOf supported_ext_list, strEndsWith n a = true := by
    rcases hcase with h | h
    · exact ⟨e, hpats.1, h⟩
    · exact ⟨strToUpper e, hpats.2, h⟩
  have huni : ∀ x ∈ patsOf supported_ext_list, strEndsWith n x = true → x = a := by
    intro x hx hpx
    rcases List.suffix_or_suffix_of_suffix (strEndsWith_iff.mp hpx) (strEndsWith_iff.mp hpa)
      with h | h
    · exact pats_suffix_unique x hx a hamem h
    · exact (pats_suffix_unique a hamem x hx h).symm
  have h1 : (patsOf supported_ext_list).countP (fun p => strEndsWith n p) = 1 :=
    countP_eq_one_of_unique _ _ a pats_nodup hamem hpa huni
  have h2 : dir.count n = 1 := List.count_eq_one_of_mem hnd hmem
  rw [findFiles, count_globExts, h1, h2]

/-- Witness for C5's amended statement: an exact-uppercase `.PDF` file
is discovered exactly once. -/
theorem find_files_exact_case_witness :
    (findFiles ["report.PDF", "readme.md"]).count "report.PDF" = 1 :=
  find_files_exact_case ["report.PDF", "readme.md"] "report.PDF" (by decide) (by decide)
    ⟨".pdf", by decide, Or.inr (by decide)⟩

/-- C6: `classify_document` always returns one of the five category
labels, and returns `"general"` whenever no keyword of any of the four
sets occurs in the lower-cased content or filename. -/
theorem classify_closed_enum :
    (∀ content filename : String,
        classify_document content filename = "financial" ∨
        classify_document content filename = "legal" ∨
        classify_document content filename = "hr" ∨
        classify_document content filename = "technical" ∨
        classify_document content filename = "general") ∧
      ∀ content filename : String,
        (∀ k ∈ financial_keywords ++ legal_keywords ++ hr_keywords ++ tech_keywords,
            strContains (strToLower content) k = false ∧
              strContains (strToLower filename) k = false) →
        classify_document content filename = "general" := by
  constructor
  · intro c f
    simp only [classify_document]
    split_ifs <;> simp
  · intro c f h
    have key : ∀ kws : List String,
        (∀ k ∈ kws, k ∈ financial_keywords ++ legal_keywords ++ hr_keywords ++ tech_keywords) →
        keywordHit (strToLower c) (strToLower f) kws = false := by
      intro kws hsub
      simp only [keywordHit, List.any_eq_false, Bool.or_eq_true]
      intro k hk
      have hkk := h k (hsub k hk)
      simp [hkk.1, hkk.2]
    have hf := key financial_keywords fun k hk => by simp [List.mem_append]; tauto
    have hl := key legal_keywords fun k hk => by simp [List.mem_append]; tauto
    have hh := key hr_keywords fun k hk => by simp [List.mem_append]; tauto
    have ht := key tech_keywords fun k hk => by simp [List.mem_append]; tauto
    simp [classify_document, hf, hl, hh, ht]

/-- Witness for C6: a content/filename pair containing no keyword of any
set classifies as `"general"`. -/
theorem classify_closed_enum_witness :
    classify_document "hello world" "notes.bin" = "general" :=
  classify_closed_enum.2 "hello world" "notes.bin" (by decide)

/-- C7: for a missing path, `process_document` returns the structured
failure `File not found: <path>`, and in general every `process_document`
call yields a structured result — a success record or an error record —
never an uncaught exception. -/
theorem process_document_structured_errors (fs : FS) (p : String) :
    (fs.pathExists p = false → process_document fs p = .err ("File not found: " ++ p)) ∧
      ((process_document fs p).success = true ∨ ∃ msg, process_document fs p = .err msg) := by
  constructor
  · intro h
    simp [process_document, h]
  · cases process_document fs p with
    | ok a b c d e f => exact Or.inl rfl
    | err m => exact Or.inr ⟨m, rfl⟩

/-- Witness for C7: a nonexistent path yields the not-found error
record. -/
theorem process_document_structured_errors_witness :
    process_document fsAbsent "missing.txt" = .err ("File not found: " ++ "missing.txt") :=
  (process_document_structured_errors fsAbsent "missing.txt").1 rfl

/-- C8: `classify_document` is deterministic and side-effect-free: two
calls with equal arguments return the same category from any two
instance states, and the state after the call is the state before it. -/
theorem classify_pure :
    ∀ (s1 s2 : PState) (c1 f1 c2 f2 : String), c1 = c2 → f1 = f2 →
      (classifyRun s1 c1 f1).1 = (classifyRun s2 c2 f2).1 ∧
        (classifyRun s1 c1 f1).2 = s1 ∧
        (classifyRun s1 c1 f1).1 = classify_document c1 f1 := by
  rintro s1 s2 c1 f1 c2 f2 rfl rfl
  exact ⟨rfl, rfl, rfl⟩

/-- Witness for C8: two concrete states with the same arguments. -/
theorem classify_pure_witness :
    (classifyRun ⟨[], []⟩ "invoice" "a.txt").1 = (classifyRun ⟨["x"], ["y"]⟩ "invoice" "a.txt").1 ∧
      (classifyRun ⟨[], []⟩ "invoice" "a.txt").2 = (⟨[], []⟩ : PState) ∧
      (classifyRun ⟨[], []⟩ "invoice" "a.txt").1 = classify_document "invoice" "a.txt" :=
  classify_pure ⟨[], []⟩ ⟨["x"], ["y"]⟩ "invoice" "a.txt" "invoice" "a.txt" rfl rfl

/-- C9: in a successful `process_document` result the preview equals the
extracted content when it has at most 200 characters and otherwise the
first 200 characters followed by `"..."`; the preview never exceeds 203
characters. -/
theorem content_preview_correct (fs : FS) (p : String)
    (hex : fs.pathExists p = true) (hc : extract_text fs p ≠ "") :
    process_document fs p =
      .ok (pathName p) (fs.size p) (wordCount (extract_text fs p))
        (classify_document (extract_text fs p) (pathName p))
        (generate_summary (extract_text fs p)
          (classify_document (extract_text fs p) (pathName p)))
        (contentPreview (extract_text fs p)) ∧
      (∀ c : String, c.length ≤ 200 → contentPreview c = c) ∧
      (∀ c : String, 200 < c.length →
        contentPreview c = strTake c 200 ++ "..." ∧ (contentPreview c).length = 203) ∧
      (contentPreview (extract_text fs p)).length ≤ 203 := by
  have h2 : ∀ c : String, c.length ≤ 200 → contentPreview c = c := by
    intro c h
    simp only [contentPreview]
    rw [if_neg (by omega)]
  have h3 : ∀ c : String, 200 < c.length →
      contentPreview c = strTake c 200 ++ "..." ∧ (contentPreview c).length = 203 := by
    intro c h
    have hpre : contentPreview c = strTake c 200 ++ "..." := by
      simp only [contentPreview]
      rw [if_pos (by omega)]
    refine ⟨hpre, ?_⟩
    rw [hpre, String.length_append, strTake_length]
    have hmin : min 200 c.length = 200 := by omega
    rw [hmin]
    decide
  have h4 : (contentPreview (extract_text fs p)).length ≤ 203 := by
    by_cases hlen : (extract_text fs p).length ≤ 200
    · rw [h2 _ hlen]; omega
    · have := (h3 (extract_text fs p) (by omega)).2; omega
  refine ⟨?_, h2, h3, h4⟩
  simp [process_document, hex, hc]

/-- Witness for C9: a successful run on a short text file. -/
theorem content_preview_correct_witness :
    fsBatch.pathExists "docs/a.txt" = true ∧
      (contentPreview (extract_text fsBatch "docs/a.txt")).length ≤ 203 ∧
      process_document fsBatch "docs/a.txt" =
        .ok (pathName "docs/a.txt") (fsBatch.size "docs/a.txt")
          (wordCount (extract_text fsBatch "docs/a.txt"))
          (classify_document (extract_text fsBatch "docs/a.txt") (pathName "docs/a.txt"))
          (generate_summary (extract_text fsBatch "docs/a.txt")
            (classify_document (extract_text fsBatch "docs/a.txt") (pathName "docs/a.txt")))
          (contentPreview (extract_text fsBatch "docs/a.txt")) := by
  have h := content_preview_correct fsBatch "docs/a.txt" rfl (by decide)
  exact ⟨rfl, h.2.2.2, h.1⟩

/-- C10: on an existing directory in which discovery matches no file,
`process_directory` returns the structured failure
`"No supported documents found"`. -/
theorem process_directory_none_found (fs : FS) (d : String)
    (hdir : fs.dirExists d = true)
    (hempty : findFiles (fs.listDir d) = []) :
    process_directory fs d = .err "No supported documents found" := by
  simp [process_directory, hdir, hempty]

/-- Witness for C10: a directory holding only an unsupported `.md` file
yields the no-documents failure. -/
theorem process_directory_none_found_witness :
    process_directory fsNoFiles "stuff" = .err "No supported documents found" :=
  process_directory_none_found fsNoFiles "stuff" rfl (by decide)

end DocFramework

namespace StockAnalysis

/-- C2: the fetch of `GetStockDataTool._run` makes exactly one retry
with `".NS"` appended when the first attempt on a suffix-free symbol
fails, no retry when the first attempt succeeds, and no retry — with the
error string returned — when a symbol already ending in `".NS"` fails. -/
theorem stock_fetch_retry (fetch : String → TryFetchResult) (format : String → String)
    (symbol : String) :
    (DocFramework.strEndsWith symbol ".NS" = false → (fetch symbol).success = false →
        (runStockFetch fetch format symbol).2 = [symbol, symbol ++ ".NS"]) ∧
      ((fetch symbol).success = true → (runStockFetch fetch format symbol).2 = [symbol]) ∧
      (DocFramework.strEndsWith symbol ".NS" = true → (fetch symbol).success = false →
        (runStockFetch fetch format symbol).2 = [symbol] ∧
          (runStockFetch fetch format symbol).1 = (fetch symbol).result) := by
  refine ⟨fun hNS hfail => ?_, fun hsucc => ?_, fun hNS hfail => ?_⟩
  · simp [runStockFetch, hNS, hfail]
  · simp [runStockFetch, hsucc]
  · simp [runStockFetch, hNS, hfail]

/-- Witness for C2: a failing suffix-free symbol is retried once with
`".NS"`; a succeeding symbol is not retried; a failing `".NS"` symbol is
not retried and its error string comes back. -/
theorem stock_fetch_retry_witness :
    (runStockFetch fetchAlwaysFail id "TCS").2 = ["TCS", "TCS" ++ ".NS"] ∧
      (runStockFetch fetchAlwaysOk id "NVDA").2 = ["NVDA"] ∧
      (runStockFetch fetchAlwaysFail id "TCS.NS").2 = ["TCS.NS"] ∧
      (runStockFetch fetchAlwaysFail id "TCS.NS").1 = "Error fetching " ++ "TCS.NS" := by
  refine ⟨(stock_fetch_retry fetchAlwaysFail id "TCS").1 (by decide) rfl, ?_, ?_, ?_⟩
  · exact (stock_fetch_retry fetchAlwaysOk id "NVDA").2.1 rfl
  · exact ((stock_fetch_retry fetchAlwaysFail id "TCS.NS").2.2 (by decide) rfl).1
  · exact ((stock_fetch_retry fetchAlwaysFail id "TCS.NS").2.2 (by decide) rfl).2

end StockAnalysis
